import Mathlib

/-!
Verification of the chat-completion request/response normalization core of the
deepseek-mcp-server repository: the cost model (cost.ts), the error taxonomy
(errors.ts), and the request builder, non-streaming reducer, stream
accumulator and client operations (deepseek-client.ts), shallowly embedded as
executable Lean definitions.  JavaScript strings are `String`, optional or
nullable fields are `Option`, token counts are `Nat`, and JS numbers used in
the cost model are `ℚ` (all the pricing literals are exact decimals).
-/

set_option autoImplicit false

namespace DeepSeekMCP

/-- Models the JavaScript expression `x || dflt` on a `string | null | undefined`
value `x`: the default is taken when the value is absent, null, or the empty
string (the only falsy string). -/
def jsOrString (x : Option String) (dflt : String) : String :=
  match x with
  | Option.some s => if s = "" then dflt else s
  | Option.none => dflt

/-- Models the JavaScript truthiness test `if (x)` on a `string | null | undefined`
value: true exactly when the value is a present, non-empty string. -/
def strTruthy (x : Option String) : Bool :=
  match x with
  | Option.some s => s ≠ ""
  | Option.none => false

@[simp] theorem jsOrString_none (d : String) : jsOrString Option.none d = d := rfl

@[simp] theorem jsOrString_some (s d : String) :
    jsOrString (Option.some s) d = if s = "" then d else s := rfl

/-! ## Cost model (cost.ts) -/

/-- One entry of the pricing table: USD rates per ­million prompt/completion
tokens. -/
structure ModelPricing where
  prompt : ℚ
  completion : ℚ
  deriving DecidableEq

/-- The `'deepseek-chat'` entry of the `PRICING` table, which is also the
fallback tier used for unknown models. -/
def chatTierPricing : ModelPricing := { prompt := 0.14, completion := 0.28 }

/-- The static `PRICING` table of cost.ts, keyed by model identifier. -/
def PRICING (model : String) : Option ModelPricing :=
  if model = "deepseek-chat" then Option.some chatTierPricing
  else if model = "deepseek-reasoner" then
    Option.some { prompt := 0.55, completion := 2.19 }
  else Option.none

/-- The pricing actually used for a model: the table entry, or the chat tier
when the model is absent (`PRICING[model] || PRICING['deepseek-chat']`). -/
def resolvePricing (model : String) : ModelPricing :=
  (PRICING model).getD chatTierPricing

/-- `calculateCost` of cost.ts:
`(promptTokens / 1_000_000) * rate.prompt + (completionTokens / 1_000_000) * rate.completion`. -/
def calculateCost (promptTokens completionTokens : Nat) (model : String) : ℚ :=
  let modelPricing := resolvePricing model
  let promptCost := ((promptTokens : ℚ) / 1000000) * modelPricing.prompt
  let completionCost := ((completionTokens : ℚ) / 1000000) * modelPricing.completion
  promptCost + completionCost

/-- The exactly `n` decimal digits of `k % 10^n`, most significant first
(with leading zeros), as JavaScript `toFixed` renders the fractional part. -/
def digitChars : Nat → Nat → List Char
  | _, 0 => []
  | k, n + 1 => digitChars (k / 10) n ++ [Nat.digitChar (k % 10)]

/-- Models `Number.prototype.toFixed(n)` for the non-negative finite values the
cost module produces: round half up to `n` decimal places and render with
exactly `n` fractional digits. -/
def toFixed (q : ℚ) (n : Nat) : String :=
  let scaled : Int := ⌊q * (10 : ℚ) ^ n + 1 / 2⌋
  let a : Nat := scaled.toNat
  toString (a / 10 ^ n) ++ "." ++ String.mk (digitChars (a % 10 ^ n) n)

/-- `formatCost` of cost.ts: 4 decimal places below one cent, else 2, with a
dollar marker. -/
def formatCost (cost : ℚ) : String :=
  if cost < 0.01 then "$" ++ toFixed cost 4
  else "$" ++ toFixed cost 2

/-- Number of characters after the last decimal point of a rendered string
(all of them digit characters for the strings `formatCost` produces). -/
def fracDigitCount (s : String) : Nat :=
  (s.data.reverse.takeWhile (fun c => c ≠ '.')).length

/-! ### Cost lemmas -/

theorem digitChars_length (n : Nat) : ∀ k, (digitChars k n).length = n := by
  induction n with
  | zero => intro k; rfl
  | succ n ih =>
      intro k
      simp [digitChars, ih]

theorem digitChar_ne_dot (d : Nat) : Nat.digitChar d ≠ '.' := by
  rcases Nat.lt_or_ge d 16 with h16 | h16
  · interval_cases d <;> decide
  · have hstar : Nat.digitChar d = '*' := by
      unfold Nat.digitChar
      repeat rw [if_neg (by omega)]
    rw [hstar]
    decide

theorem digitChars_ne_dot (n : Nat) : ∀ k, ∀ c ∈ digitChars k n, c ≠ '.' := by
  induction n with
  | zero => intro k c hc; simp [digitChars] at hc
  | succ n ih =>
      intro k c hc
      rw [show digitChars k (n + 1) =
        digitChars (k / 10) n ++ [Nat.digitChar (k % 10)] from rfl] at hc
      rcases List.mem_append.mp hc with hc | hc
      · exact ih _ c hc
      · rw [List.mem_singleton] at hc
        subst hc
        exact digitChar_ne_dot _

theorem takeWhile_append_stop (p : Char → Bool) (c : Char) (ys : List Char)
    (hc : p c = false) :
    ∀ xs : List Char, (∀ x ∈ xs, p x = true) →
      List.takeWhile p (xs ++ c :: ys) = xs := by
  intro xs
  induction xs with
  | nil => intro _; simp [List.takeWhile_cons, hc]
  | cons x xs ih =>
      intro hxs
      have hx : p x = true := hxs x (List.mem_cons_self x xs)
      rw [List.cons_append, List.takeWhile_cons, hx]
      simp only [if_true]
      rw [ih (fun y hy => hxs y (List.mem_cons_of_mem x hy))]

theorem fracDigitCount_of_data (s : String) (A l : List Char)
    (hs : s.data = A ++ '.' :: l) (hl : ∀ c ∈ l, c ≠ '.') :
    fracDigitCount s = l.length := by
  unfold fracDigitCount
  rw [hs]
  have hrev : (A ++ '.' :: l).reverse = l.reverse ++ '.' :: A.reverse := by
    simp
  rw [hrev, takeWhile_append_stop _ '.' _ (by decide) l.reverse
    (by intro x hx; simpa using hl x (List.mem_reverse.mp hx))]
  simp

theorem toFixed_eval (q : ℚ) (n : Nat) (k : Int)
    (hk : ⌊q * (10 : ℚ) ^ n + 1 / 2⌋ = k) :
    toFixed q n =
      toString (k.toNat / 10 ^ n) ++ "." ++
        String.mk (digitChars (k.toNat % 10 ^ n) n) := by
  unfold toFixed
  rw [hk]

theorem fracDigitCount_toFixed (q : ℚ) (n : Nat) :
    fracDigitCount ("$" ++ toFixed q n) = n := by
  rw [fracDigitCount_of_data ("$" ++ toFixed q n)
    ('$' :: (toString ((⌊q * (10 : ℚ) ^ n + 1 / 2⌋).toNat / 10 ^ n)).data)
    (digitChars ((⌊q * (10 : ℚ) ^ n + 1 / 2⌋).toNat % 10 ^ n) n)
    (by unfold toFixed
        rw [String.data_append, String.data_append, String.data_append]
        simp)
    (digitChars_ne_dot n _)]
  exact digitChars_length n _

/-- C7: `calculateCost` is the per-million formula over the resolved pricing;
an unknown model falls back to the deepseek-chat rates; zero tokens cost
exactly zero; and a million tokens each way on deepseek-chat cost 0.42 USD. -/
theorem calculateCost_spec (p c : Nat) (m : String) :
    calculateCost p c m =
      ((p : ℚ) / 1000000) * (resolvePricing m).prompt +
        ((c : ℚ) / 1000000) * (resolvePricing m).completion
    ∧ (PRICING m = Option.none → calculateCost p c m = calculateCost p c "deepseek-chat")
    ∧ calculateCost p c "unknown-model" = calculateCost p c "deepseek-chat"
    ∧ calculateCost 0 0 m = 0
    ∧ calculateCost 1000000 1000000 "deepseek-chat" = 0.42 := by
  refine ⟨rfl, ?_, ?_, ?_, ?_⟩
  · intro hm
    unfold calculateCost resolvePricing
    rw [hm]
    rfl
  · rfl
  · unfold calculateCost
    norm_num
  · unfold calculateCost resolvePricing PRICING chatTierPricing
    norm_num

/-- Witness for `calculateCost_spec` at a concrete input. -/
theorem calculateCost_spec_witness :
    calculateCost 3 5 "deepseek-reasoner" =
      ((3 : ℚ) / 1000000) * (resolvePricing "deepseek-reasoner").prompt +
        ((5 : ℚ) / 1000000) * (resolvePricing "deepseek-reasoner").completion
    ∧ (PRICING "deepseek-reasoner" = Option.none →
        calculateCost 3 5 "deepseek-reasoner" = calculateCost 3 5 "deepseek-chat")
    ∧ calculateCost 3 5 "unknown-model" = calculateCost 3 5 "deepseek-chat"
    ∧ calculateCost 0 0 "deepseek-reasoner" = 0
    ∧ calculateCost 1000000 1000000 "deepseek-chat" = 0.42 :=
  calculateCost_spec 3 5 "deepseek-reasoner"

/-- C8: `formatCost` always starts with the dollar marker, renders 4 decimal
digits for costs below one cent and 2 otherwise, and on the boundary inputs
0.01, 0.0099 and 0 produces exactly the strings the repository tests expect. -/
theorem formatCost_spec (cost : ℚ) (h : 0 ≤ cost) :
    (∃ t, formatCost cost = "$" ++ t)
    ∧ (cost < 0.01 → fracDigitCount (formatCost cost) = 4)
    ∧ (¬ cost < 0.01 → fracDigitCount (formatCost cost) = 2)
    ∧ formatCost 0.01 = "$0.01"
    ∧ formatCost 0.0099 = "$0.0099"
    ∧ formatCost 0 = "$0.0000" := by
  refine ⟨?_, ?_, ?_, ?_, ?_, ?_⟩
  · unfold formatCost
    split
    · exact ⟨toFixed cost 4, rfl⟩
    · exact ⟨toFixed cost 2, rfl⟩
  · intro hlt
    unfold formatCost
    rw [if_pos hlt]
    exact fracDigitCount_toFixed cost 4
  · intro hge
    unfold formatCost
    rw [if_neg hge]
    exact fracDigitCount_toFixed cost 2
  · unfold formatCost
    rw [if_neg (by norm_num), toFixed_eval 0.01 2 1 (by norm_num)]
    decide
  · unfold formatCost
    rw [if_pos (by norm_num), toFixed_eval 0.0099 4 99 (by norm_num)]
    decide
  · unfold formatCost
    rw [if_pos (by norm_num), toFixed_eval 0 4 0 (by norm_num)]
    decide

/-- Witness for `formatCost_spec` at the concrete cost 0.02. -/
theorem formatCost_spec_witness :
    (0 : ℚ) ≤ 0.02 ∧
    ((∃ t, formatCost 0.02 = "$" ++ t)
    ∧ ((0.02 : ℚ) < 0.01 → fracDigitCount (formatCost 0.02) = 4)
    ∧ (¬ (0.02 : ℚ) < 0.01 → fracDigitCount (formatCost 0.02) = 2)
    ∧ formatCost 0.01 = "$0.01"
    ∧ formatCost 0.0099 = "$0.0099"
    ∧ formatCost 0 = "$0.0000") :=
  ⟨by norm_num, formatCost_spec 0.02 (by norm_num)⟩

/-! ## Data model (types.ts) -/

/-- A JSON-shaped value, used for the `parameters` field of a function
definition (`Record<string, unknown>` upstream); the core never inspects it. -/
inductive JsonValue where
  | null : JsonValue
  | bool (b : Bool) : JsonValue
  | num (q : ℚ) : JsonValue
  | str (s : String) : JsonValue
  | arr (xs : List JsonValue) : JsonValue
  | obj (fields : List (String × JsonValue)) : JsonValue

/-- Message role in conversation. -/
inductive MessageRole where
  | system | user | assistant | tool
  deriving DecidableEq

/-- Chat message structure. -/
structure ChatMessage where
  role : MessageRole
  content : String
  tool_call_id : Option String := Option.none
  deriving DecidableEq

/-- Function definition within a tool. -/
structure FunctionDefinition where
  name : String
  description : Option String := Option.none
  parameters : Option JsonValue := Option.none
  strict : Option Bool := Option.none

/-- Tool definition for function calling; the `type` field is the literal
string `"function"` upstream. -/
structure ToolDefinition where
  type : String := "function"
  function : FunctionDefinition

/-- Controls which tool the model calls: one of the literal strings
`auto`/`none`/`required`, or a pinned function name. -/
inductive ToolChoice where
  | auto | none | required
  | function (name : String)
  deriving DecidableEq

/-- Parameters for a chat completion request (`ChatCompletionParams`).
The model identifier is one of the two `DeepSeekModel` literal strings. -/
structure ChatCompletionParams where
  model : String
  messages : List ChatMessage
  temperature : Option ℚ := Option.none
  max_tokens : Option Nat := Option.none
  top_p : Option ℚ := Option.none
  frequency_penalty : Option ℚ := Option.none
  presence_penalty : Option ℚ := Option.none
  stop : Option (String ⊕ List String) := Option.none
  tools : Option (List ToolDefinition) := Option.none
  tool_choice : Option ToolChoice := Option.none

/-- The name/arguments payload of a tool call. -/
structure ToolCallFunction where
  name : String
  arguments : String
  deriving DecidableEq

/-- Tool call returned by the model: `type` is always the literal
`"function"` in the canonical result. -/
structure ToolCall where
  id : String
  type : String
  function : ToolCallFunction
  deriving DecidableEq

/-- Token usage block. -/
structure Usage where
  prompt_tokens : Nat
  completion_tokens : Nat
  total_tokens : Nat
  deriving DecidableEq

/-- Canonical result of a chat completion (`ChatCompletionResponse`). -/
structure ChatCompletionResponse where
  content : String
  reasoning_content : Option String
  model : String
  usage : Usage
  finish_reason : String
  tool_calls : Option (List ToolCall)
  deriving DecidableEq

/-- A tool call as it appears on a raw (non-streaming) upstream message. -/
structure RawToolCall where
  id : String
  type : String
  function : ToolCallFunction
  deriving DecidableEq

/-- Raw upstream assistant message (`DeepSeekChatCompletionMessage`):
`content` may be null, `reasoning_content` may be absent. -/
structure RawMessage where
  content : Option String
  tool_calls : Option (List RawToolCall) := Option.none
  reasoning_content : Option String := Option.none
  deriving DecidableEq

/-- Raw upstream choice (`DeepSeekChatCompletionChoice`); `finish_reason`
is defended against being null/empty at runtime. -/
structure RawChoice where
  message : RawMessage
  finish_reason : Option String
  deriving DecidableEq

/-- Raw upstream non-streaming response (`DeepSeekRawResponse`). -/
structure DeepSeekRawResponse where
  id : String
  choices : List RawChoice
  model : String
  usage : Option Usage
  deriving DecidableEq

/-- Models the `hasReasoningContent` type guard of types.ts: the optional
`reasoning_content` field is present and is a string. -/
def hasReasoningContent (reasoning : Option String) : Bool :=
  reasoning.isSome

/-! ## Error taxonomy (errors.ts), as thrown JavaScript values -/

/-- A thrown JavaScript value as the client's catch sites see it: an instance
of the repository's `ApiError` class (message, optional cause, optional status
code, retryable flag), some other `Error` instance, a thrown string, or any
other value. -/
inductive JsErr where
  | api (message : String) (cause : Option JsErr) (statusCode : Option Nat)
      (retryable : Bool) : JsErr
  | err (message : String) (cause : Option JsErr) : JsErr
  | str (s : String) : JsErr
  | other : JsErr

/-- `error instanceof Error`. -/
def isErrorInstance : JsErr → Bool
  | JsErr.api _ _ _ _ => true
  | JsErr.err _ _ => true
  | JsErr.str _ => false
  | JsErr.other => false

/-- `error instanceof ApiError` (the repository's class). -/
def isApiErrorInstance : JsErr → Bool
  | JsErr.api _ _ _ _ => true
  | _ => false

/-- `getErrorMessage` of types.ts: the message of an `Error`, a thrown string
itself, else `'Unknown error'`. -/
def getErrorMessage : JsErr → String
  | JsErr.api m _ _ _ => m
  | JsErr.err m _ => m
  | JsErr.str s => s
  | JsErr.other => "Unknown error"

/-- `wrapError` of deepseek-client.ts: an `ApiError` is rethrown unchanged;
anything else becomes `new ApiError(context + ': ' + message, { cause })`
where the cause is the original value only when it is an `Error` instance. -/
def wrapError (e : JsErr) (context : String) : JsErr :=
  if isApiErrorInstance e then e
  else
    JsErr.api (context ++ ": " ++ getErrorMessage e)
      (if isErrorInstance e then Option.some e else Option.none)
      Option.none false

/-! ## Request normalizer (buildRequestParams) -/

/-- The upstream request payload built by `buildRequestParams`
(`OpenAI.ChatCompletionCreateParams` as populated by the client): the
sampling fields are always present (possibly as absent optionals, mirroring
properties explicitly set to `undefined`), while `tools` and `tool_choice`
are set only conditionally. -/
structure RequestParams where
  model : String
  messages : List ChatMessage
  temperature : ℚ
  max_tokens : Option Nat
  top_p : Option ℚ
  frequency_penalty : Option ℚ
  presence_penalty : Option ℚ
  stop : Option (String ⊕ List String)
  stream : Bool
  tools : Option (List ToolDefinition)
  tool_choice : Option ToolChoice

/-- `buildRequestParams` of deepseek-client.ts: temperature defaults to 1.0
(`params.temperature ?? 1.0`); `tools` is set only when `params.tools?.length`
is truthy (present and non-empty); `tool_choice` is set only when
`params.tool_choice !== undefined`. -/
def buildRequestParams (params : ChatCompletionParams) (stream : Bool) :
    RequestParams :=
  let requestParams : RequestParams := {
    model := params.model
    messages := params.messages
    temperature := params.temperature.getD 1
    max_tokens := params.max_tokens
    top_p := params.top_p
    frequency_penalty := params.frequency_penalty
    presence_penalty := params.presence_penalty
    stop := params.stop
    stream := stream
    tools := Option.none
    tool_choice := Option.none }
  let requestParams :=
    match params.tools with
    | Option.some l =>
        if l.length ≠ 0 then { requestParams with tools := Option.some l }
        else requestParams
    | Option.none => requestParams
  match params.tool_choice with
  | Option.some tc => { requestParams with tool_choice := Option.some tc }
  | Option.none => requestParams

/-! ## Non-streaming client operation (createChatCompletion) -/

/-- The mapping applied to each upstream tool call by `createChatCompletion`:
`type` is forced to the literal `'function'`; id, name and arguments are
copied verbatim. -/
def mapRawToolCall (tc : RawToolCall) : ToolCall :=
  { id := tc.id
    type := "function"
    function := { name := tc.function.name, arguments := tc.function.arguments } }

/-- `createChatCompletion` of deepseek-client.ts, with the transport
abstracted as a function from the built request to either a raw response or
a thrown value.  The try-block body either returns the reduced response or
throws; the catch site wraps through `wrapError` with the
`'DeepSeek API Error'` context. -/
def createChatCompletion
    (transport : RequestParams → Except JsErr DeepSeekRawResponse)
    (params : ChatCompletionParams) : Except JsErr ChatCompletionResponse :=
  let attempt : Except JsErr ChatCompletionResponse :=
    match transport (buildRequestParams params false) with
    | Except.error e => Except.error e
    | Except.ok response =>
      match response.choices.head? with
      | Option.none =>
          Except.error
            (JsErr.api "No response from DeepSeek API" Option.none Option.none false)
      | Option.some choice =>
          let reasoning_content : Option String :=
            if hasReasoningContent choice.message.reasoning_content then
              choice.message.reasoning_content
            else Option.none
          let tool_calls : Option (List ToolCall) :=
            (choice.message.tool_calls).map (fun tcs => tcs.map mapRawToolCall)
          Except.ok {
            content := jsOrString choice.message.content ""
            reasoning_content := reasoning_content
            model := response.model
            usage := {
              prompt_tokens := ((response.usage).map Usage.prompt_tokens).getD 0
              completion_tokens := ((response.usage).map Usage.completion_tokens).getD 0
              total_tokens := ((response.usage).map Usage.total_tokens).getD 0 }
            finish_reason := jsOrString choice.finish_reason "stop"
            tool_calls :=
              match tool_calls with
              | Option.some l => if l.length ≠ 0 then Option.some l else Option.none
              | Option.none => Option.none }
  match attempt with
  | Except.ok r => Except.ok r
  | Except.error e => Except.error (wrapError e "DeepSeek API Error")

/-! ## Stream accumulator (createStreamingChatCompletion) -/

/-- The optional name/arguments fragments of a streamed tool-call delta. -/
structure ToolCallDeltaFunction where
  name : Option String := Option.none
  arguments : Option String := Option.none
  deriving DecidableEq

/-- One streamed tool-call delta (`DeepSeekStreamDelta.tool_calls` element):
keyed by `index`; id, type and the function fragments may be absent. -/
structure ToolCallDelta where
  index : Nat
  id : Option String := Option.none
  type : Option String := Option.none
  function : Option ToolCallDeltaFunction := Option.none
  deriving DecidableEq

/-- A streamed delta (`DeepSeekStreamDelta`). -/
structure StreamDelta where
  content : Option String := Option.none
  reasoning_content : Option String := Option.none
  tool_calls : Option (List ToolCallDelta) := Option.none
  deriving DecidableEq

/-- A streamed choice: a delta plus a nullable finish reason. -/
structure StreamChoice where
  delta : StreamDelta
  finish_reason : Option String
  deriving DecidableEq

/-- A streamed chunk (`DeepSeekStreamChunk`); `model` is a string (guarded
for truthiness at use), `usage` is optional. -/
structure StreamChunk where
  choices : List StreamChoice
  model : String
  usage : Option Usage := Option.none
  deriving DecidableEq

/-- The name fragment of a delta (`tc.function?.name`). -/
def deltaName (tc : ToolCallDelta) : Option String :=
  tc.function.bind ToolCallDeltaFunction.name

/-- The arguments fragment of a delta (`tc.function?.arguments`). -/
def deltaArgs (tc : ToolCallDelta) : Option String :=
  tc.function.bind ToolCallDeltaFunction.arguments

/-- `Map.get` on the insertion-ordered tool-call accumulator. -/
def getIdx : List (Nat × ToolCall) → Nat → Option ToolCall
  | [], _ => Option.none
  | p :: ps, i => if p.1 = i then Option.some p.2 else getIdx ps i

/-- `Map.set` on the insertion-ordered tool-call accumulator: replaces the
value in place when the key is present, otherwise appends at the end. -/
def setIdx : List (Nat × ToolCall) → Nat → ToolCall → List (Nat × ToolCall)
  | [], i, v => [(i, v)]
  | p :: ps, i, v => if p.1 = i then (i, v) :: ps else p :: setIdx ps i v

/-- The in-place mutation applied to an existing accumulator entry: append
the name fragment when truthy, append the arguments fragment when truthy;
id and type are untouched. -/
def appendFragments (existing : ToolCall) (tc : ToolCallDelta) : ToolCall :=
  { existing with
    function := {
      name :=
        if strTruthy (deltaName tc) then
          existing.function.name ++ (deltaName tc).getD ""
        else existing.function.name
      arguments :=
        if strTruthy (deltaArgs tc) then
          existing.function.arguments ++ (deltaArgs tc).getD ""
        else existing.function.arguments } }

/-- The entry seeded on first sight of an index: `id: tc.id || ''`,
`type: 'function'`, and each function fragment defaulted to the empty
string. -/
def seedToolCall (tc : ToolCallDelta) : ToolCall :=
  { id := jsOrString tc.id ""
    type := "function"
    function := {
      name := jsOrString (deltaName tc) ""
      arguments := jsOrString (deltaArgs tc) "" } }

/-- Processing of one tool-call delta against the accumulator map. -/
def applyToolCallDelta (m : List (Nat × ToolCall)) (tc : ToolCallDelta) :
    List (Nat × ToolCall) :=
  match getIdx m tc.index with
  | Option.some existing => setIdx m tc.index (appendFragments existing tc)
  | Option.none => setIdx m tc.index (seedToolCall tc)

/-- The mutable state of the streaming loop. -/
structure StreamState where
  fullContent : String
  reasoningContent : String
  modelName : String
  finishReason : String
  usage : Usage
  toolCallsMap : List (Nat × ToolCall)

/-- Initial streaming state: empty buffers, the requested model, finish
reason `'stop'`, all-zero usage, empty tool-call map. -/
def initStreamState (model : String) : StreamState :=
  { fullContent := ""
    reasoningContent := ""
    modelName := model
    finishReason := "stop"
    usage := { prompt_tokens := 0, completion_tokens := 0, total_tokens := 0 }
    toolCallsMap := [] }

/-- The loop body for one chunk: `chunk.choices[0]` absent skips the chunk
entirely (`if (!choice) continue`); otherwise content, reasoning content,
tool-call deltas, finish reason, model name and usage are each folded in
exactly as the sequence of guarded statements in the source (the updates
touch disjoint state fields). -/
def processChunk (st : StreamState) (chunk : StreamChunk) : StreamState :=
  match chunk.choices.head? with
  | Option.none => st
  | Option.some choice =>
      { fullContent :=
          if strTruthy choice.delta.content then
            st.fullContent ++ choice.delta.content.getD ""
          else st.fullContent
        reasoningContent :=
          if hasReasoningContent choice.delta.reasoning_content then
            st.reasoningContent ++ choice.delta.reasoning_content.getD ""
          else st.reasoningContent
        toolCallsMap :=
          match choice.delta.tool_calls with
          | Option.some tcs => tcs.foldl applyToolCallDelta st.toolCallsMap
          | Option.none => st.toolCallsMap
        finishReason :=
          if strTruthy choice.finish_reason then choice.finish_reason.getD ""
          else st.finishReason
        modelName := if chunk.model ≠ "" then chunk.model else st.modelName
        usage :=
          match chunk.usage with
          | Option.some u => u
          | Option.none => st.usage }

/-- Insertion into a list of entries sorted by ascending index, modelling
the final `.sort(([a], [b]) => a - b)` (keys are unique, so stability is
irrelevant). -/
def insertByIdx (p : Nat × ToolCall) :
    List (Nat × ToolCall) → List (Nat × ToolCall)
  | [] => [p]
  | q :: qs => if p.1 ≤ q.1 then p :: q :: qs else q :: insertByIdx p qs

/-- Sorting the accumulated entries by ascending index. -/
def sortByIdx : List (Nat × ToolCall) → List (Nat × ToolCall)
  | [] => []
  | p :: ps => insertByIdx p (sortByIdx ps)

/-- The final response assembled after the streaming loop: the reasoning
buffer and the tool-call map are emitted only when non-empty
(`reasoningContent || undefined`, `toolCallsMap.size > 0 ? ... : undefined`),
the tool calls sorted by ascending index. -/
def finalizeStream (st : StreamState) : ChatCompletionResponse :=
  { content := st.fullContent
    reasoning_content :=
      if st.reasoningContent = "" then Option.none
      else Option.some st.reasoningContent
    model := st.modelName
    usage := st.usage
    finish_reason := st.finishReason
    tool_calls :=
      if st.toolCallsMap.length > 0 then
        Option.some ((sortByIdx st.toolCallsMap).map Prod.snd)
      else Option.none }

/-- The whole streaming fold: all chunks consumed in arrival order starting
from the initial state for the requested model, then finalized. -/
def accumulateStream (model : String) (chunks : List StreamChunk) :
    ChatCompletionResponse :=
  finalizeStream (chunks.foldl processChunk (initStreamState model))

/-- `createStreamingChatCompletion` of deepseek-client.ts: build the
streaming request, obtain the event sequence from the transport (or the
value its iteration throws), fold it, and wrap any thrown value with the
`'DeepSeek Streaming API Error'` context. -/
def createStreamingChatCompletion
    (transport : RequestParams → Except JsErr (List StreamChunk))
    (params : ChatCompletionParams) : Except JsErr ChatCompletionResponse :=
  match transport (buildRequestParams params true) with
  | Except.error e => Except.error (wrapError e "DeepSeek Streaming API Error")
  | Except.ok chunks => Except.ok (accumulateStream params.model chunks)

/-! ## testConnection -/

/-- The fixed minimal probe request issued by `testConnection`. -/
def testConnectionParams : ChatCompletionParams :=
  { model := "deepseek-chat"
    messages := [{ role := MessageRole.user, content := "Hi" }]
    max_tokens := Option.some 10 }

/-- `testConnection` of deepseek-client.ts: a total boolean function of the
transport behavior — `!!response.content` on success, `false` on any caught
failure (it never propagates a thrown value). -/
def testConnection
    (transport : RequestParams → Except JsErr DeepSeekRawResponse) : Bool :=
  match createChatCompletion transport testConnectionParams with
  | Except.ok response => response.content ≠ ""
  | Except.error _ => false

/-! ## Request-normalizer theorems -/

theorem buildRequestParams_eq (p : ChatCompletionParams) (s : Bool) :
    buildRequestParams p s =
      { model := p.model
        messages := p.messages
        temperature := p.temperature.getD 1
        max_tokens := p.max_tokens
        top_p := p.top_p
        frequency_penalty := p.frequency_penalty
        presence_penalty := p.presence_penalty
        stop := p.stop
        stream := s
        tools :=
          match p.tools with
          | Option.some l => if l.length ≠ 0 then Option.some l else Option.none
          | Option.none => Option.none
        tool_choice := p.tool_choice } := by
  unfold buildRequestParams
  rcases p.tools with _ | l <;> rcases p.tool_choice with _ | tc <;> dsimp only <;>
    first
      | rfl
      | (split <;> rfl)

/-- C6: the built upstream payload always carries the model, messages,
temperature (defaulting to 1.0), max_tokens, top_p, penalties, stop and the
stream flag; `tools` is present exactly when the params carry a non-empty
tool list (and is then that list); `tool_choice` is carried exactly when it
was provided. -/
theorem buildRequestParams_spec (p : ChatCompletionParams) (s : Bool) :
    (buildRequestParams p s).model = p.model
    ∧ (buildRequestParams p s).messages = p.messages
    ∧ (buildRequestParams p s).temperature = p.temperature.getD 1
    ∧ (p.temperature = Option.none → (buildRequestParams p s).temperature = 1)
    ∧ (buildRequestParams p s).max_tokens = p.max_tokens
    ∧ (buildRequestParams p s).top_p = p.top_p
    ∧ (buildRequestParams p s).frequency_penalty = p.frequency_penalty
    ∧ (buildRequestParams p s).presence_penalty = p.presence_penalty
    ∧ (buildRequestParams p s).stop = p.stop
    ∧ (buildRequestParams p s).stream = s
    ∧ ((buildRequestParams p s).tools ≠ Option.none ↔
        ∃ l, p.tools = Option.some l ∧ l ≠ [])
    ∧ (∀ l, p.tools = Option.some l → l ≠ [] →
        (buildRequestParams p s).tools = Option.some l)
    ∧ (p.tools = Option.some [] → (buildRequestParams p s).tools = Option.none)
    ∧ (p.tools = Option.none → (buildRequestParams p s).tools = Option.none)
    ∧ (buildRequestParams p s).tool_choice = p.tool_choice := by
  rw [buildRequestParams_eq]
  refine ⟨rfl, rfl, rfl, ?_, rfl, rfl, rfl, rfl, rfl, rfl, ?_, ?_, ?_, ?_, rfl⟩
  · intro ht; rw [ht]; rfl
  · rcases hp : p.tools with _ | l
    · simp
    · by_cases hl : l = []
      · subst hl; simp
      · simp only [List.length_eq_zero]
        constructor
        · intro _; exact ⟨l, rfl, hl⟩
        · intro _
          rw [if_pos (by simpa using hl)]
          simp
  · intro l hl hlne
    rw [hl]
    simp only [List.length_eq_zero]
    rw [if_pos (by simpa using hlne)]
  · intro hl; rw [hl]; simp
  · intro hl; rw [hl]

/-- Witness for `buildRequestParams_spec` at a concrete params value. -/
theorem buildRequestParams_spec_witness :
    (buildRequestParams testConnectionParams true).model = testConnectionParams.model
    ∧ (buildRequestParams testConnectionParams true).messages = testConnectionParams.messages
    ∧ (buildRequestParams testConnectionParams true).temperature =
        testConnectionParams.temperature.getD 1
    ∧ (testConnectionParams.temperature = Option.none →
        (buildRequestParams testConnectionParams true).temperature = 1)
    ∧ (buildRequestParams testConnectionParams true).max_tokens = testConnectionParams.max_tokens
    ∧ (buildRequestParams testConnectionParams true).top_p = testConnectionParams.top_p
    ∧ (buildRequestParams testConnectionParams true).frequency_penalty =
        testConnectionParams.frequency_penalty
    ∧ (buildRequestParams testConnectionParams true).presence_penalty =
        testConnectionParams.presence_penalty
    ∧ (buildRequestParams testConnectionParams true).stop = testConnectionParams.stop
    ∧ (buildRequestParams testConnectionParams true).stream = true
    ∧ ((buildRequestParams testConnectionParams true).tools ≠ Option.none ↔
        ∃ l, testConnectionParams.tools = Option.some l ∧ l ≠ [])
    ∧ (∀ l, testConnectionParams.tools = Option.some l → l ≠ [] →
        (buildRequestParams testConnectionParams true).tools = Option.some l)
    ∧ (testConnectionParams.tools = Option.some [] →
        (buildRequestParams testConnectionParams true).tools = Option.none)
    ∧ (testConnectionParams.tools = Option.none →
        (buildRequestParams testConnectionParams true).tools = Option.none)
    ∧ (buildRequestParams testConnectionParams true).tool_choice =
        testConnectionParams.tool_choice :=
  buildRequestParams_spec testConnectionParams true

/-! ## Error-wrapping theorems -/

/-- C3: a raw value thrown by the transport (an `Error` that is not already
the repository's `ApiError`) reaches the caller of either client operation
wrapped as an `ApiError` whose message carries the operation-context marker
and whose cause is the original error. -/
theorem transport_error_wrapped (params : ChatCompletionParams) (e : JsErr)
    (transportN : RequestParams → Except JsErr DeepSeekRawResponse)
    (transportS : RequestParams → Except JsErr (List StreamChunk))
    (h1 : isApiErrorInstance e = false) (h2 : isErrorInstance e = true)
    (hN : transportN (buildRequestParams params false) = Except.error e)
    (hS : transportS (buildRequestParams params true) = Except.error e) :
    createChatCompletion transportN params =
      Except.error (JsErr.api ("DeepSeek API Error: " ++ getErrorMessage e)
        (Option.some e) Option.none false)
    ∧ createStreamingChatCompletion transportS params =
      Except.error (JsErr.api ("DeepSeek Streaming API Error: " ++ getErrorMessage e)
        (Option.some e) Option.none false) := by
  constructor
  · unfold createChatCompletion
    rw [hN]
    simp [wrapError, h1, h2]
  · unfold createStreamingChatCompletion
    rw [hS]
    simp [wrapError, h1, h2]

/-- Witness for `transport_error_wrapped` with a concrete rejecting
transport. -/
theorem transport_error_wrapped_witness :
    isApiErrorInstance (JsErr.err "network down" Option.none) = false
    ∧ isErrorInstance (JsErr.err "network down" Option.none) = true
    ∧ (createChatCompletion (fun _ => Except.error (JsErr.err "network down" Option.none))
          testConnectionParams =
        Except.error (JsErr.api
          ("DeepSeek API Error: " ++ getErrorMessage (JsErr.err "network down" Option.none))
          (Option.some (JsErr.err "network down" Option.none)) Option.none false)
      ∧ createStreamingChatCompletion
          (fun _ => Except.error (JsErr.err "network down" Option.none))
          testConnectionParams =
        Except.error (JsErr.api
          ("DeepSeek Streaming API Error: " ++
            getErrorMessage (JsErr.err "network down" Option.none))
          (Option.some (JsErr.err "network down" Option.none)) Option.none false)) :=
  ⟨rfl, rfl,
    transport_error_wrapped testConnectionParams (JsErr.err "network down" Option.none)
      (fun _ => Except.error (JsErr.err "network down" Option.none))
      (fun _ => Except.error (JsErr.err "network down" Option.none))
      rfl rfl rfl rfl⟩

/-- C4: the non-streaming reduction surfaces the
`'No response from DeepSeek API'` Api failure exactly when the upstream
choice list is empty, and succeeds whenever at least one choice is
present. -/
theorem empty_choices_error_iff (params : ChatCompletionParams)
    (resp : DeepSeekRawResponse) :
    (createChatCompletion (fun _ => Except.ok resp) params =
        Except.error (JsErr.api "No response from DeepSeek API"
          Option.none Option.none false)
      ↔ resp.choices = [])
    ∧ (resp.choices ≠ [] →
        ∃ r, createChatCompletion (fun _ => Except.ok resp) params = Except.ok r) := by
  rcases hc : resp.choices with _ | ⟨c, cs⟩
  · constructor
    · simp [createChatCompletion, hc, wrapError, isApiErrorInstance]
    · intro hne; exact absurd rfl hne
  · constructor
    · simp [createChatCompletion, hc]
    · intro _
      simp only [createChatCompletion, hc]
      exact ⟨_, rfl⟩

/-- A concrete one-choice upstream response used for instantiations. -/
def sampleOkResponse : DeepSeekRawResponse :=
  { id := "resp-ok"
    choices := [{ message := { content := Option.some "Hello!" }
                  finish_reason := Option.some "stop" }]
    model := "deepseek-chat"
    usage := Option.none }

/-- Witness for `empty_choices_error_iff` at a concrete one-choice
response. -/
theorem empty_choices_error_iff_witness :
    (createChatCompletion (fun _ => Except.ok sampleOkResponse) testConnectionParams =
        Except.error (JsErr.api "No response from DeepSeek API"
          Option.none Option.none false)
      ↔ sampleOkResponse.choices = [])
    ∧ (sampleOkResponse.choices ≠ [] →
        ∃ r, createChatCompletion (fun _ => Except.ok sampleOkResponse)
          testConnectionParams = Except.ok r) :=
  empty_choices_error_iff testConnectionParams sampleOkResponse

theorem createChatCompletion_ok (params : ChatCompletionParams)
    (resp : DeepSeekRawResponse) (choice : RawChoice)
    (h : resp.choices.head? = Option.some choice) :
    createChatCompletion (fun _ => Except.ok resp) params = Except.ok
      ⟨jsOrString choice.message.content "",
       (if hasReasoningContent choice.message.reasoning_content then
          choice.message.reasoning_content
        else Option.none),
       resp.model,
       ⟨((resp.usage).map Usage.prompt_tokens).getD 0,
        ((resp.usage).map Usage.completion_tokens).getD 0,
        ((resp.usage).map Usage.total_tokens).getD 0⟩,
       jsOrString choice.finish_reason "stop",
       (match (choice.message.tool_calls).map (fun tcs => tcs.map mapRawToolCall) with
        | Option.some l => if l.length ≠ 0 then Option.some l else Option.none
        | Option.none => Option.none)⟩ := by
  simp only [createChatCompletion, h]

/-- C5: when the upstream response has a first choice, the reduction
succeeds and the result applies the documented defaults: content from the
first choice (empty when null/absent), all-zero usage when the usage block is
omitted (or the block verbatim when present), finish reason `'stop'` when
absent, each tool call mapped with `type` forced to `'function'` preserving
id/name/arguments verbatim, and an empty mapped tool-call list emitted as
absent. -/
theorem reduction_defaults (params : ChatCompletionParams)
    (resp : DeepSeekRawResponse) (choice : RawChoice)
    (h : resp.choices.head? = Option.some choice) :
    ∃ r, createChatCompletion (fun _ => Except.ok resp) params = Except.ok r
      ∧ r.content = jsOrString choice.message.content ""
      ∧ (choice.message.content = Option.none → r.content = "")
      ∧ (resp.usage = Option.none →
          r.usage = { prompt_tokens := 0, completion_tokens := 0, total_tokens := 0 })
      ∧ (∀ u, resp.usage = Option.some u → r.usage = u)
      ∧ (choice.finish_reason = Option.none → r.finish_reason = "stop")
      ∧ (∀ tcs, choice.message.tool_calls = Option.some tcs → tcs ≠ [] →
          r.tool_calls = Option.some (tcs.map mapRawToolCall))
      ∧ (∀ tc, mapRawToolCall tc =
          { id := tc.id, type := "function", function := tc.function })
      ∧ (choice.message.tool_calls = Option.some [] → r.tool_calls = Option.none)
      ∧ (choice.message.tool_calls = Option.none → r.tool_calls = Option.none) := by
  refine ⟨_, createChatCompletion_ok params resp choice h, ?_, ?_, ?_, ?_, ?_, ?_, ?_, ?_, ?_⟩
  · rfl
  · intro hc; simp [hc, jsOrString]
  · intro hu; simp [hu]
  · intro u hu; simp [hu]
  · intro hf; simp [hf, jsOrString]
  · intro tcs htc hne
    have hlen : (tcs.map mapRawToolCall).length ≠ 0 := by
      simpa [List.length_eq_zero] using hne
    simp [htc, hlen]
    exact hne
  · intro tc; rfl
  · intro htc; simp [htc]
  · intro htc; simp [htc]

/-- A concrete upstream response exercising every default of the
non-streaming reduction: null content, one tool call, no usage block,
absent finish reason. -/
def sampleToolResponse : DeepSeekRawResponse :=
  { id := "resp-tool"
    choices := [{ message := {
                    content := Option.none
                    tool_calls := Option.some
                      [{ id := "call_abc123"
                         type := "function"
                         function := { name := "get_weather"
                                       arguments := "\x7b\x22location\x22:\x22NYC\x22\x7d" } }]
                  }
                  finish_reason := Option.none }]
    model := "deepseek-chat"
    usage := Option.none }

/-- Witness for `reduction_defaults` at a concrete response. -/
theorem reduction_defaults_witness :
    sampleToolResponse.choices.head? = Option.some (sampleToolResponse.choices.get ⟨0, by decide⟩)
    ∧ (∃ r, createChatCompletion (fun _ => Except.ok sampleToolResponse)
          testConnectionParams = Except.ok r
      ∧ r.content = jsOrString (sampleToolResponse.choices.get ⟨0, by decide⟩).message.content ""
      ∧ ((sampleToolResponse.choices.get ⟨0, by decide⟩).message.content = Option.none →
          r.content = "")
      ∧ (sampleToolResponse.usage = Option.none →
          r.usage = { prompt_tokens := 0, completion_tokens := 0, total_tokens := 0 })
      ∧ (∀ u, sampleToolResponse.usage = Option.some u → r.usage = u)
      ∧ ((sampleToolResponse.choices.get ⟨0, by decide⟩).finish_reason = Option.none →
          r.finish_reason = "stop")
      ∧ (∀ tcs, (sampleToolResponse.choices.get ⟨0, by decide⟩).message.tool_calls =
            Option.some tcs → tcs ≠ [] →
          r.tool_calls = Option.some (tcs.map mapRawToolCall))
      ∧ (∀ tc, mapRawToolCall tc =
          { id := tc.id, type := "function", function := tc.function })
      ∧ ((sampleToolResponse.choices.get ⟨0, by decide⟩).message.tool_calls =
            Option.some [] → r.tool_calls = Option.none)
      ∧ ((sampleToolResponse.choices.get ⟨0, by decide⟩).message.tool_calls =
            Option.none → r.tool_calls = Option.none)) :=
  ⟨rfl, reduction_defaults testConnectionParams sampleToolResponse _ rfl⟩

/-- C9: `testConnection` is a total boolean probe: it reports `true` exactly
when the probe call succeeded with a non-empty content string, and any
transport rejection yields `false` instead of a propagated failure. -/
theorem testConnection_spec
    (transport : RequestParams → Except JsErr DeepSeekRawResponse) :
    (testConnection transport = true ↔
      ∃ r, createChatCompletion transport testConnectionParams = Except.ok r
        ∧ r.content ≠ "")
    ∧ (∀ e, transport (buildRequestParams testConnectionParams false) =
          Except.error e →
        testConnection transport = false) := by
  constructor
  · unfold testConnection
    cases hr : createChatCompletion transport testConnectionParams with
    | ok r =>
        simp only [decide_eq_true_eq]
        constructor
        · intro hcontent; exact ⟨r, rfl, hcontent⟩
        · rintro ⟨r2, hr2, hc2⟩
          cases hr2; exact hc2
    | error e =>
        simp
  · intro e he
    unfold testConnection createChatCompletion
    rw [he]

/-- Witness for `testConnection_spec` with an always-rejecting transport. -/
theorem testConnection_spec_witness :
    (testConnection (fun _ => Except.error (JsErr.str "offline")) = true ↔
      ∃ r, createChatCompletion (fun _ => Except.error (JsErr.str "offline"))
          testConnectionParams = Except.ok r
        ∧ r.content ≠ "")
    ∧ (∀ e, (fun _ => Except.error (JsErr.str "offline"))
          (buildRequestParams testConnectionParams false) =
          (Except.error e : Except JsErr DeepSeekRawResponse) →
        testConnection (fun _ => Except.error (JsErr.str "offline")) = false) :=
  testConnection_spec (fun _ => Except.error (JsErr.str "offline"))

/-- An upstream response with an empty choice list. -/
def emptyChoicesResponse : DeepSeekRawResponse :=
  { id := "resp-empty"
    choices := []
    model := "deepseek-chat"
    usage := Option.none }

/-- C10: `wrapError` rethrows an existing `ApiError` unchanged (no context
marker, no cause) — in particular the `'No response from DeepSeek API'`
failure raised for an empty choice list reaches the caller verbatim — while
a thrown value that is not an `Error` instance is wrapped with an undefined
cause. -/
theorem apiError_rethrown_unchanged (ctx : String) (e eNon : JsErr)
    (params : ChatCompletionParams)
    (h1 : isApiErrorInstance e = true) (h2 : isErrorInstance eNon = false) :
    wrapError e ctx = e
    ∧ wrapError eNon ctx =
        JsErr.api (ctx ++ ": " ++ getErrorMessage eNon) Option.none Option.none false
    ∧ createChatCompletion (fun _ => Except.ok emptyChoicesResponse) params =
        Except.error (JsErr.api "No response from DeepSeek API"
          Option.none Option.none false) := by
  have h3 : isApiErrorInstance eNon = false := by
    cases eNon <;> simp_all [isErrorInstance, isApiErrorInstance]
  refine ⟨?_, ?_, ?_⟩
  · rw [wrapError, if_pos h1]
  · rw [wrapError, if_neg (by rw [h3]; exact Bool.false_ne_true), h2]
    rfl
  · simp [createChatCompletion, emptyChoicesResponse, wrapError, isApiErrorInstance]

/-- Witness for `apiError_rethrown_unchanged` at concrete errors. -/
theorem apiError_rethrown_unchanged_witness :
    isApiErrorInstance (JsErr.api "quota" Option.none (Option.some 429) true) = true
    ∧ isErrorInstance (JsErr.str "oops") = false
    ∧ (wrapError (JsErr.api "quota" Option.none (Option.some 429) true) "CTX" =
        JsErr.api "quota" Option.none (Option.some 429) true
      ∧ wrapError (JsErr.str "oops") "CTX" =
          JsErr.api ("CTX" ++ ": " ++ getErrorMessage (JsErr.str "oops"))
            Option.none Option.none false
      ∧ createChatCompletion (fun _ => Except.ok emptyChoicesResponse)
          testConnectionParams =
        Except.error (JsErr.api "No response from DeepSeek API"
          Option.none Option.none false)) :=
  ⟨rfl, rfl,
    apiError_rethrown_unchanged "CTX"
      (JsErr.api "quota" Option.none (Option.some 429) true)
      (JsErr.str "oops") testConnectionParams rfl rfl⟩

/-! ## Stream accumulator: specification-level gather functions

These recharacterize the per-event fold in terms of the whole event
sequence, so the accumulation theorems can compare the two. -/

/-- The tool-call deltas contributed by one chunk: those of the first
choice's delta, none when the choice list is empty. -/
def chunkToolDeltas (chunk : StreamChunk) : List ToolCallDelta :=
  match chunk.choices.head? with
  | Option.some choice => (choice.delta.tool_calls).getD []
  | Option.none => []

/-- All tool-call deltas of the stream, in arrival order. -/
def streamToolDeltas : List StreamChunk → List ToolCallDelta
  | [] => []
  | c :: cs => chunkToolDeltas c ++ streamToolDeltas cs

/-- The name fragment contributed by a delta (empty when absent). -/
def nameFrag (tc : ToolCallDelta) : String := jsOrString (deltaName tc) ""

/-- The arguments fragment contributed by a delta (empty when absent). -/
def argsFrag (tc : ToolCallDelta) : String := jsOrString (deltaArgs tc) ""

/-- The tool call the specification predicts for one index: the id of the
first delta seen for that index (empty when absent there), type
`'function'`, and the name/arguments fragments of all its deltas
concatenated in arrival order. -/
def specMergedToolCall (d : ToolCallDelta) (rest : List ToolCallDelta) : ToolCall :=
  { id := jsOrString d.id ""
    type := "function"
    function := {
      name := (d :: rest).foldl (fun s t => s ++ nameFrag t) ""
      arguments := (d :: rest).foldl (fun s t => s ++ argsFrag t) "" } }

/-- The usage block of the last event that carries one, regardless of its
choice list (the reading the claim takes). -/
def lastCarriedUsage : List StreamChunk → Option Usage
  | [] => Option.none
  | c :: cs =>
      match lastCarriedUsage cs with
      | Option.some u => Option.some u
      | Option.none => c.usage

/-- The usage block of the last event that both has a non-empty choice list
and carries one (the events the loop actually processes). -/
def lastUsageIn : List StreamChunk → Option Usage
  | [] => Option.none
  | c :: cs =>
      match lastUsageIn cs with
      | Option.some u => Option.some u
      | Option.none =>
          match c.choices.head? with
          | Option.some _ => c.usage
          | Option.none => Option.none

/-! ### Accumulator-map lemmas -/

theorem appendFragments_eq (a : ToolCall) (tc : ToolCallDelta) :
    appendFragments a tc =
      ⟨a.id, a.type,
        ⟨a.function.name ++ nameFrag tc, a.function.arguments ++ argsFrag tc⟩⟩ := by
  unfold appendFragments nameFrag argsFrag
  rcases hn : deltaName tc with _ | s <;> rcases ha : deltaArgs tc with _ | t <;>
    simp [strTruthy, jsOrString, String.append_empty] <;>
    (repeat' split) <;> simp_all [String.append_empty]

theorem seedToolCall_eq (tc : ToolCallDelta) :
    seedToolCall tc = ⟨jsOrString tc.id "", "function", ⟨nameFrag tc, argsFrag tc⟩⟩ :=
  rfl

theorem foldl_strcat (f : ToolCallDelta → String) (ts : List ToolCallDelta) :
    ∀ x : String,
      ts.foldl (fun s t => s ++ f t) x = x ++ ts.foldl (fun s t => s ++ f t) "" := by
  induction ts with
  | nil => intro x; exact (String.append_empty x).symm
  | cons t ts ih =>
      intro x
      rw [List.foldl_cons, List.foldl_cons, ih (x ++ f t), ih ("" ++ f t),
        String.empty_append, String.append_assoc]

theorem foldl_appendFragments (ts : List ToolCallDelta) :
    ∀ a : ToolCall,
      ts.foldl appendFragments a =
        ⟨a.id, a.type,
          ⟨a.function.name ++ ts.foldl (fun s t => s ++ nameFrag t) "",
           a.function.arguments ++ ts.foldl (fun s t => s ++ argsFrag t) ""⟩⟩ := by
  induction ts with
  | nil =>
      intro a
      rw [List.foldl_nil, List.foldl_nil, List.foldl_nil,
        String.append_empty, String.append_empty]
  | cons t ts ih =>
      intro a
      rw [List.foldl_cons, ih (appendFragments a t), appendFragments_eq,
        List.foldl_cons, List.foldl_cons,
        foldl_strcat nameFrag ts ("" ++ nameFrag t),
        foldl_strcat argsFrag ts ("" ++ argsFrag t),
        String.empty_append, String.empty_append,
        String.append_assoc, String.append_assoc]

theorem specMergedToolCall_eq_foldl (d : ToolCallDelta) (rest : List ToolCallDelta) :
    rest.foldl appendFragments (seedToolCall d) = specMergedToolCall d rest := by
  rw [foldl_appendFragments, seedToolCall_eq]
  unfold specMergedToolCall
  rw [List.foldl_cons, List.foldl_cons,
    foldl_strcat nameFrag rest ("" ++ nameFrag d),
    foldl_strcat argsFrag rest ("" ++ argsFrag d),
    String.empty_append, String.empty_append]

theorem getIdx_setIdx_self (m : List (Nat × ToolCall)) (i : Nat) (v : ToolCall) :
    getIdx (setIdx m i v) i = Option.some v := by
  induction m with
  | nil => simp [setIdx, getIdx]
  | cons p ps ih =>
      by_cases hp : p.1 = i
      · simp [setIdx, hp, getIdx]
      · simp [setIdx, hp, getIdx, ih]

theorem getIdx_setIdx_ne (m : List (Nat × ToolCall)) (i j : Nat) (v : ToolCall)
    (h : j ≠ i) : getIdx (setIdx m j v) i = getIdx m i := by
  induction m with
  | nil => simp [setIdx, getIdx, h]
  | cons p ps ih =>
      by_cases hp : p.1 = j
      · simp [setIdx, hp, getIdx, h]
      · simp [setIdx, hp, getIdx, ih]

theorem getIdx_apply_self (m : List (Nat × ToolCall)) (t : ToolCallDelta) :
    getIdx (applyToolCallDelta m t) t.index =
      match getIdx m t.index with
      | Option.some a => Option.some (appendFragments a t)
      | Option.none => Option.some (seedToolCall t) := by
  unfold applyToolCallDelta
  rcases h : getIdx m t.index with _ | a <;> simp [h, getIdx_setIdx_self]

theorem getIdx_apply_ne (m : List (Nat × ToolCall)) (t : ToolCallDelta) (i : Nat)
    (h : t.index ≠ i) :
    getIdx (applyToolCallDelta m t) i = getIdx m i := by
  unfold applyToolCallDelta
  rcases hm : getIdx m t.index with _ | a <;> simp [getIdx_setIdx_ne _ _ _ _ h]

theorem getIdx_foldl_some (ds : List ToolCallDelta) :
    ∀ (m : List (Nat × ToolCall)) (i : Nat) (a : ToolCall),
      getIdx m i = Option.some a →
      getIdx (ds.foldl applyToolCallDelta m) i =
        Option.some ((ds.filter (fun t => t.index = i)).foldl appendFragments a) := by
  induction ds with
  | nil => intro m i a h; simpa using h
  | cons t ts ih =>
      intro m i a h
      rw [List.foldl_cons]
      by_cases ht : t.index = i
      · have hset : getIdx (applyToolCallDelta m t) i =
            Option.some (appendFragments a t) := by
          rw [← ht] at h ⊢
          rw [getIdx_apply_self, h]
        rw [ih _ _ _ hset, List.filter_cons_of_pos (by simpa using ht),
          List.foldl_cons]
      · rw [ih _ _ _ (by rw [getIdx_apply_ne m t i ht]; exact h),
          List.filter_cons_of_neg (by simpa using ht)]

theorem getIdx_foldl_none (ds : List ToolCallDelta) :
    ∀ (m : List (Nat × ToolCall)) (i : Nat),
      getIdx m i = Option.none →
      ds.filter (fun t => t.index = i) = [] →
      getIdx (ds.foldl applyToolCallDelta m) i = Option.none := by
  induction ds with
  | nil => intro m i h _; simpa using h
  | cons t ts ih =>
      intro m i h hf
      rw [List.foldl_cons]
      by_cases ht : t.index = i
      · rw [List.filter_cons_of_pos (by simpa using ht)] at hf
        exact absurd hf (List.cons_ne_nil _ _)
      · rw [List.filter_cons_of_neg (by simpa using ht)] at hf
        exact ih _ _ (by rw [getIdx_apply_ne m t i ht]; exact h) hf

theorem getIdx_foldl_first (ds : List ToolCallDelta) :
    ∀ (m : List (Nat × ToolCall)) (i : Nat) (d : ToolCallDelta)
      (rest : List ToolCallDelta),
      getIdx m i = Option.none →
      ds.filter (fun t => t.index = i) = d :: rest →
      getIdx (ds.foldl applyToolCallDelta m) i =
        Option.some (rest.foldl appendFragments (seedToolCall d)) := by
  induction ds with
  | nil => intro m i d rest _ hf; simp at hf
  | cons t ts ih =>
      intro m i d rest h hf
      rw [List.foldl_cons]
      by_cases ht : t.index = i
      · rw [List.filter_cons_of_pos (by simpa using ht)] at hf
        injection hf with hd hrest
        subst hd hrest
        have hset : getIdx (applyToolCallDelta m t) i =
            Option.some (seedToolCall t) := by
          rw [← ht] at h ⊢
          rw [getIdx_apply_self, h]
        exact getIdx_foldl_some ts _ _ _ hset
      · rw [List.filter_cons_of_neg (by simpa using ht)] at hf
        exact ih _ _ _ _ (by rw [getIdx_apply_ne m t i ht]; exact h) hf

/-! ### Key-set and uniqueness lemmas for the accumulator map -/

theorem getIdx_eq_none_iff (m : List (Nat × ToolCall)) (i : Nat) :
    getIdx m i = Option.none ↔ i ∉ m.map Prod.fst := by
  induction m with
  | nil => simp [getIdx]
  | cons p ps ih =>
      by_cases hp : p.1 = i
      · simp [getIdx, hp]
      · simp [getIdx, hp, ih, Ne.symm hp]

theorem mem_of_getIdx (m : List (Nat × ToolCall)) (i : Nat) (a : ToolCall)
    (h : getIdx m i = Option.some a) : (i, a) ∈ m := by
  induction m with
  | nil => simp [getIdx] at h
  | cons p ps ih =>
      by_cases hp : p.1 = i
      · rw [getIdx, if_pos hp] at h
        injection h with h
        have hpa : (i, a) = p := by rw [← hp, ← h]
        rw [hpa]
        exact List.mem_cons_self p ps
      · rw [getIdx, if_neg hp] at h
        exact List.mem_cons_of_mem p (ih h)

theorem getIdx_of_mem (m : List (Nat × ToolCall)) (i : Nat) (a : ToolCall)
    (hnd : (m.map Prod.fst).Nodup) (h : (i, a) ∈ m) :
    getIdx m i = Option.some a := by
  induction m with
  | nil => simp at h
  | cons p ps ih =>
      rw [List.map_cons, List.nodup_cons] at hnd
      rcases List.mem_cons.mp h with h | h
      · rw [← h, getIdx, if_pos rfl]
      · have hpi : p.1 ≠ i := by
          intro hpi
          exact hnd.1 (hpi ▸ (List.mem_map_of_mem Prod.fst h))
        rw [getIdx, if_neg hpi]
        exact ih hnd.2 h

theorem keys_setIdx_mem (m : List (Nat × ToolCall)) (i : Nat) (v : ToolCall)
    (h : getIdx m i ≠ Option.none) :
    (setIdx m i v).map Prod.fst = m.map Prod.fst := by
  induction m with
  | nil => simp [getIdx] at h
  | cons p ps ih =>
      by_cases hp : p.1 = i
      · simp [setIdx, hp]
      · rw [getIdx, if_neg hp] at h
        simp [setIdx, hp, ih h]

theorem keys_setIdx_new (m : List (Nat × ToolCall)) (i : Nat) (v : ToolCall)
    (h : getIdx m i = Option.none) :
    (setIdx m i v).map Prod.fst = m.map Prod.fst ++ [i] := by
  induction m with
  | nil => simp [setIdx]
  | cons p ps ih =>
      by_cases hp : p.1 = i
      · rw [getIdx, if_pos hp] at h
        exact absurd h (by simp)
      · rw [getIdx, if_neg hp] at h
        simp [setIdx, hp, ih h]

theorem keys_apply (m : List (Nat × ToolCall)) (t : ToolCallDelta) (j : Nat) :
    j ∈ (applyToolCallDelta m t).map Prod.fst ↔
      j ∈ m.map Prod.fst ∨ j = t.index := by
  unfold applyToolCallDelta
  rcases hm : getIdx m t.index with _ | a
  · rw [keys_setIdx_new m t.index _ hm]
    simp
  · rw [keys_setIdx_mem m t.index _ (by rw [hm]; exact Option.noConfusion)]
    constructor
    · exact Or.inl
    · rintro (h | h)
      · exact h
      · rw [h]
        exact (getIdx_eq_none_iff m t.index).not_left.mp (by rw [hm]; simp)

theorem nodup_keys_apply (m : List (Nat × ToolCall)) (t : ToolCallDelta)
    (hnd : (m.map Prod.fst).Nodup) :
    ((applyToolCallDelta m t).map Prod.fst).Nodup := by
  unfold applyToolCallDelta
  rcases hm : getIdx m t.index with _ | a
  · rw [keys_setIdx_new m t.index _ hm]
    refine List.Nodup.append hnd (List.nodup_singleton _) ?_
    intro j hj hj1
    rw [List.mem_singleton] at hj1
    rw [hj1] at hj
    exact ((getIdx_eq_none_iff m t.index).mp hm) hj
  · rw [keys_setIdx_mem m t.index _ (by rw [hm]; exact Option.noConfusion)]
    exact hnd

theorem nodup_keys_foldl (ds : List ToolCallDelta) :
    ∀ m : List (Nat × ToolCall), (m.map Prod.fst).Nodup →
      ((ds.foldl applyToolCallDelta m).map Prod.fst).Nodup := by
  induction ds with
  | nil => intro m h; simpa using h
  | cons t ts ih =>
      intro m h
      rw [List.foldl_cons]
      exact ih _ (nodup_keys_apply m t h)

theorem keys_foldl_mem (ds : List ToolCallDelta) :
    ∀ (m : List (Nat × ToolCall)) (j : Nat),
      j ∈ (ds.foldl applyToolCallDelta m).map Prod.fst ↔
        j ∈ m.map Prod.fst ∨ j ∈ ds.map ToolCallDelta.index := by
  induction ds with
  | nil => intro m j; simp
  | cons t ts ih =>
      intro m j
      rw [List.foldl_cons, ih, keys_apply]
      simp [or_assoc, or_comm, or_left_comm]

theorem setIdx_ne_nil (m : List (Nat × ToolCall)) (i : Nat) (v : ToolCall) :
    setIdx m i v ≠ [] := by
  cases m with
  | nil => simp [setIdx]
  | cons p ps =>
      rw [setIdx]
      split <;> simp

theorem foldl_apply_ne_nil (ds : List ToolCallDelta) :
    ∀ m : List (Nat × ToolCall), ds ≠ [] →
      ds.foldl applyToolCallDelta m ≠ [] := by
  induction ds with
  | nil => intro m h; exact absurd rfl h
  | cons t ts ih =>
      intro m _
      rw [List.foldl_cons]
      by_cases hts : ts = []
      · rw [hts, List.foldl_nil]
        unfold applyToolCallDelta
        rcases getIdx m t.index with _ | a <;> exact setIdx_ne_nil _ _ _
      · exact ih _ hts

/-! ### Sorting lemmas -/

theorem insertByIdx_perm (p : Nat × ToolCall) (l : List (Nat × ToolCall)) :
    List.Perm (insertByIdx p l) (p :: l) := by
  induction l with
  | nil => rfl
  | cons q qs ih =>
      rw [insertByIdx]
      split
      · rfl
      · exact List.Perm.trans (List.Perm.cons q ih) (List.Perm.swap p q qs)

theorem sortByIdx_perm (l : List (Nat × ToolCall)) :
    List.Perm (sortByIdx l) l := by
  induction l with
  | nil => rfl
  | cons p ps ih =>
      rw [sortByIdx]
      exact List.Perm.trans (insertByIdx_perm p (sortByIdx ps)) (List.Perm.cons p ih)

theorem mem_insertByIdx (p x : Nat × ToolCall) (l : List (Nat × ToolCall))
    (h : x ∈ insertByIdx p l) : x = p ∨ x ∈ l := by
  have hm := (insertByIdx_perm p l).mem_iff.mp h
  simpa using hm

theorem insertByIdx_sorted (p : Nat × ToolCall) (l : List (Nat × ToolCall))
    (hl : l.Pairwise (fun a b => a.1 ≤ b.1)) :
    (insertByIdx p l).Pairwise (fun a b => a.1 ≤ b.1) := by
  induction l with
  | nil => simp [insertByIdx]
  | cons q qs ih =>
      rw [List.pairwise_cons] at hl
      rw [insertByIdx]
      split
      · rename_i hpq
        rw [List.pairwise_cons]
        refine ⟨?_, List.pairwise_cons.mpr hl⟩
        intro b hb
        rcases List.mem_cons.mp hb with hb | hb
        · rw [hb]; exact hpq
        · exact le_trans hpq (hl.1 b hb)
      · rename_i hpq
        rw [List.pairwise_cons]
        refine ⟨?_, ih hl.2⟩
        intro b hb
        rcases mem_insertByIdx p b qs hb with hb | hb
        · rw [hb]; omega
        · exact hl.1 b hb

theorem sortByIdx_sorted (l : List (Nat × ToolCall)) :
    (sortByIdx l).Pairwise (fun a b => a.1 ≤ b.1) := by
  induction l with
  | nil => simp [sortByIdx]
  | cons p ps ih => exact insertByIdx_sorted p (sortByIdx ps) ih

theorem sortByIdx_strict (l : List (Nat × ToolCall))
    (hnd : (l.map Prod.fst).Nodup) :
    (sortByIdx l).Pairwise (fun a b => a.1 < b.1) := by
  have hperm : List.Perm ((sortByIdx l).map Prod.fst) (l.map Prod.fst) :=
    List.Perm.map Prod.fst (sortByIdx_perm l)
  have hnds : ((sortByIdx l).map Prod.fst).Nodup := hperm.nodup_iff.mpr hnd
  have hne : (sortByIdx l).Pairwise (fun a b => a.1 ≠ b.1) :=
    (List.pairwise_map.mp hnds)
  exact ((sortByIdx_sorted l).and hne).imp
    (fun hab => lt_of_le_of_ne hab.1 hab.2)

/-! ### Projections of the chunk fold -/

theorem processChunk_toolCallsMap (st : StreamState) (c : StreamChunk) :
    (processChunk st c).toolCallsMap =
      (chunkToolDeltas c).foldl applyToolCallDelta st.toolCallsMap := by
  unfold processChunk chunkToolDeltas
  rcases c.choices.head? with _ | choice
  · rfl
  · dsimp only
    rcases choice.delta.tool_calls with _ | tcs <;> rfl

theorem foldl_processChunk_toolCallsMap (chunks : List StreamChunk) :
    ∀ st : StreamState,
      (chunks.foldl processChunk st).toolCallsMap =
        (streamToolDeltas chunks).foldl applyToolCallDelta st.toolCallsMap := by
  induction chunks with
  | nil => intro st; rfl
  | cons c cs ih =>
      intro st
      rw [List.foldl_cons, ih, streamToolDeltas, List.foldl_append,
        processChunk_toolCallsMap]

theorem processChunk_usage (st : StreamState) (c : StreamChunk) :
    (processChunk st c).usage =
      match c.choices.head? with
      | Option.none => st.usage
      | Option.some _ =>
          match c.usage with
          | Option.some u => u
          | Option.none => st.usage := by
  unfold processChunk
  rcases c.choices.head? with _ | choice <;> rfl

theorem foldl_processChunk_usage (chunks : List StreamChunk) :
    ∀ st : StreamState,
      (chunks.foldl processChunk st).usage =
        match lastUsageIn chunks with
        | Option.some u => u
        | Option.none => st.usage := by
  induction chunks with
  | nil => intro st; rfl
  | cons c cs ih =>
      intro st
      rw [List.foldl_cons, ih, lastUsageIn, processChunk_usage]
      rcases lastUsageIn cs with _ | u <;>
        rcases c.choices.head? with _ | ch <;>
        rcases c.usage with _ | u2 <;> rfl

theorem accumulateStream_tool_calls (model : String) (chunks : List StreamChunk) :
    (accumulateStream model chunks).tool_calls =
      (if ((streamToolDeltas chunks).foldl applyToolCallDelta []).length > 0 then
        Option.some
          ((sortByIdx ((streamToolDeltas chunks).foldl applyToolCallDelta [])).map
            Prod.snd)
      else Option.none) := by
  unfold accumulateStream finalizeStream
  rw [foldl_processChunk_toolCallsMap]
  rfl

theorem accumulateStream_usage (model : String) (chunks : List StreamChunk) :
    (accumulateStream model chunks).usage =
      match lastUsageIn chunks with
      | Option.some u => u
      | Option.none => { prompt_tokens := 0, completion_tokens := 0, total_tokens := 0 } := by
  unfold accumulateStream finalizeStream
  rw [foldl_processChunk_usage]
  rcases lastUsageIn chunks with _ | u <;> rfl

/-! ### C2: usage and empty-choice handling -/

/-- A processed chunk carrying a usage block. -/
def c2ChunkA : StreamChunk :=
  { choices := [{ delta := {}, finish_reason := Option.none }]
    model := "deepseek-chat"
    usage := Option.some { prompt_tokens := 1, completion_tokens := 2, total_tokens := 3 } }

/-- A chunk with an empty choice list that nevertheless carries a usage
block (as the terminal usage-only chunk of the upstream wire format does). -/
def c2ChunkB : StreamChunk :=
  { choices := []
    model := "deepseek-chat"
    usage := Option.some { prompt_tokens := 4, completion_tokens := 5, total_tokens := 6 } }

/-- C2 counterexample: the claim says the usage block of the last event
carrying one determines the result's usage even when that event has an empty
choice list; but the loop skips empty-choice chunks before reading usage, so
the stream `[c2ChunkA, c2ChunkB]` keeps the earlier usage `{1,2,3}` and not
`{4,5,6}` from the last usage-carrying event. -/
theorem stream_usage_last_event_cex :
    lastCarriedUsage [c2ChunkA, c2ChunkB] =
      Option.some { prompt_tokens := 4, completion_tokens := 5, total_tokens := 6 }
    ∧ (accumulateStream "deepseek-chat" [c2ChunkA, c2ChunkB]).usage =
        { prompt_tokens := 1, completion_tokens := 2, total_tokens := 3 }
    ∧ ({ prompt_tokens := 1, completion_tokens := 2, total_tokens := 3 } : Usage) ≠
        { prompt_tokens := 4, completion_tokens := 5, total_tokens := 6 } :=
  ⟨rfl, rfl, by decide⟩

/-- C2 (amended): the result's usage is the usage block of the last event
that has a non-empty choice list and carries one (all-zero when no such
event exists), and an event whose choice list is empty contributes nothing
at all to the accumulated state — its usage block included — and, the fold
being total, never raises an error. -/
theorem stream_usage_empty_choice (model : String) (chunks : List StreamChunk) :
    (accumulateStream model chunks).usage =
      (match lastUsageIn chunks with
       | Option.some u => u
       | Option.none => { prompt_tokens := 0, completion_tokens := 0, total_tokens := 0 })
    ∧ (∀ (st : StreamState) (c : StreamChunk), c.choices = [] → processChunk st c = st) := by
  refine ⟨accumulateStream_usage model chunks, ?_⟩
  intro st c hc
  unfold processChunk
  rw [hc]
  rfl

/-- Witness for `stream_usage_empty_choice` at the concrete two-chunk
stream. -/
theorem stream_usage_empty_choice_witness :
    ((accumulateStream "deepseek-chat" [c2ChunkA, c2ChunkB]).usage =
      (match lastUsageIn [c2ChunkA, c2ChunkB] with
       | Option.some u => u
       | Option.none => { prompt_tokens := 0, completion_tokens := 0, total_tokens := 0 }))
    ∧ (∀ (st : StreamState) (c : StreamChunk), c.choices = [] → processChunk st c = st) :=
  stream_usage_empty_choice "deepseek-chat" [c2ChunkA, c2ChunkB]

/-! ### C1: tool-call accumulation -/

/-- C1: the folded stream's tool calls are exactly the per-index merges of
the tool-call deltas: absent when no delta was ever seen; otherwise a list
of entries strictly sorted by ascending index, one per index that appears
among the deltas, each carrying the id of the first delta for that index
(empty when absent there) and the name/arguments fragments concatenated in
arrival order. -/
theorem stream_tool_call_accumulation (model : String) (chunks : List StreamChunk) :
    ((accumulateStream model chunks).tool_calls = Option.none ↔
      streamToolDeltas chunks = [])
    ∧ (∀ l, (accumulateStream model chunks).tool_calls = Option.some l →
        ∃ entries : List (Nat × ToolCall),
          l = entries.map Prod.snd
          ∧ entries.Pairwise (fun p q => p.1 < q.1)
          ∧ (∀ i, (∃ d ∈ streamToolDeltas chunks, d.index = i) ↔
              ∃ a, (i, a) ∈ entries)
          ∧ (∀ i a, (i, a) ∈ entries →
              ∃ d rest,
                (streamToolDeltas chunks).filter (fun t => t.index = i) = d :: rest
                ∧ a = specMergedToolCall d rest)) := by
  have htc := accumulateStream_tool_calls model chunks
  set ds := streamToolDeltas chunks with hds
  set bm := ds.foldl applyToolCallDelta [] with hbm
  have hnd : (bm.map Prod.fst).Nodup := by
    rw [hbm]; exact nodup_keys_foldl ds [] (by simp)
  constructor
  · rw [htc]
    constructor
    · intro hnone
      by_contra hne
      have hbmne : bm ≠ [] := by rw [hbm]; exact foldl_apply_ne_nil ds [] hne
      rw [if_pos (List.length_pos.mpr hbmne)] at hnone
      exact Option.noConfusion hnone
    · intro hdsnil
      have hbmnil : bm = [] := by rw [hbm, hdsnil]; rfl
      rw [if_neg (by rw [hbmnil]; simp)]
  · intro l hl
    rw [htc] at hl
    by_cases hpos : bm.length > 0
    · rw [if_pos hpos] at hl
      injection hl with hl
      refine ⟨sortByIdx bm, hl.symm, sortByIdx_strict bm hnd, ?_, ?_⟩
      · intro i
        constructor
        · rintro ⟨d, hdmem, hdidx⟩
          have hkey : i ∈ bm.map Prod.fst := by
            rw [hbm, keys_foldl_mem]
            right
            exact hdidx ▸ List.mem_map_of_mem ToolCallDelta.index hdmem
          rcases List.mem_map.mp hkey with ⟨p, hp, hp1⟩
          refine ⟨p.2, ?_⟩
          rw [(sortByIdx_perm bm).mem_iff]
          have hpe : (i, p.2) = p := by rw [← hp1]
          rw [hpe]
          exact hp
        · rintro ⟨a, ha⟩
          have hmem : (i, a) ∈ bm := (sortByIdx_perm bm).mem_iff.mp ha
          have hkey : i ∈ bm.map Prod.fst :=
            List.mem_map_of_mem Prod.fst hmem
          rw [hbm, keys_foldl_mem] at hkey
          rcases hkey with h0 | hmem2
          · simp at h0
          · rcases List.mem_map.mp hmem2 with ⟨d, hd, hdi⟩
            exact ⟨d, hd, hdi⟩
      · intro i a ha
        have hmem : (i, a) ∈ bm := (sortByIdx_perm bm).mem_iff.mp ha
        have hget : getIdx bm i = Option.some a := getIdx_of_mem bm i a hnd hmem
        rcases hfil : ds.filter (fun t => t.index = i) with _ | ⟨d, rest⟩
        · have hnone : getIdx bm i = Option.none := by
            rw [hbm]
            exact getIdx_foldl_none ds [] i rfl hfil
          rw [hnone] at hget
          exact Option.noConfusion hget
        · have hfirst : getIdx bm i =
              Option.some (rest.foldl appendFragments (seedToolCall d)) := by
            rw [hbm]
            exact getIdx_foldl_first ds [] i d rest rfl hfil
          rw [hfirst] at hget
          injection hget with hget
          exact ⟨d, rest, hfil, by rw [← hget, specMergedToolCall_eq_foldl]⟩
    · rw [if_neg hpos] at hl
      exact Option.noConfusion hl

/-- First delta for index 1, arriving before any delta for index 0. -/
def c1DeltaB0 : ToolCallDelta :=
  { index := 1
    id := Option.some "call_time"
    type := Option.some "function"
    function := Option.some { name := Option.some "get_", arguments := Option.some "" } }

/-- First delta for index 0. -/
def c1DeltaA0 : ToolCallDelta :=
  { index := 0
    id := Option.some "call_123"
    type := Option.some "function"
    function := Option.some { name := Option.some "get_", arguments := Option.some "" } }

/-- Continuation delta for index 0: no id, fragments only. -/
def c1DeltaA1 : ToolCallDelta :=
  { index := 0
    function := Option.some
      { name := Option.some "weather"
        arguments := Option.some "\x7b\x22location\x22:\x22NYC\x22\x7d" } }

/-- Continuation delta for index 1: name fragment only. -/
def c1DeltaB1 : ToolCallDelta :=
  { index := 1
    function := Option.some { name := Option.some "time", arguments := Option.none } }

/-- A concrete stream whose tool-call deltas arrive for index 1 before
index 0 and are split across chunks. -/
def c1Chunks : List StreamChunk :=
  [ { choices := [{ delta := { tool_calls := Option.some [c1DeltaB0] }
                    finish_reason := Option.none }]
      model := "deepseek-chat" }
  , { choices := [{ delta := { tool_calls := Option.some [c1DeltaA0, c1DeltaB1] }
                    finish_reason := Option.none }]
      model := "deepseek-chat" }
  , { choices := [{ delta := { tool_calls := Option.some [c1DeltaA1] }
                    finish_reason := Option.some "tool_calls" }]
      model := "deepseek-chat" } ]

/-- Witness for `stream_tool_call_accumulation` at the concrete stream. -/
theorem stream_tool_call_accumulation_witness :
    ((accumulateStream "deepseek-chat" c1Chunks).tool_calls = Option.none ↔
      streamToolDeltas c1Chunks = [])
    ∧ (∀ l, (accumulateStream "deepseek-chat" c1Chunks).tool_calls = Option.some l →
        ∃ entries : List (Nat × ToolCall),
          l = entries.map Prod.snd
          ∧ entries.Pairwise (fun p q => p.1 < q.1)
          ∧ (∀ i, (∃ d ∈ streamToolDeltas c1Chunks, d.index = i) ↔
              ∃ a, (i, a) ∈ entries)
          ∧ (∀ i a, (i, a) ∈ entries →
              ∃ d rest,
                (streamToolDeltas c1Chunks).filter (fun t => t.index = i) = d :: rest
                ∧ a = specMergedToolCall d rest)) :=
  stream_tool_call_accumulation "deepseek-chat" c1Chunks

end DeepSeekMCP
